import Mathlib

/-!
Verification of scripts/aws_vpc.py.

The script is a linear sequence of AWS EC2 API calls.  We model the cloud
endpoint as a record of response functions (each returning a value or an
error), and the script as a function from that environment, the interactive
input line and a fuel bound for its single unbounded loop to the trace of
events it performs (one input read, one client creation, the API calls with
their arguments, the printed summary lines) together with an outcome.
-/

namespace AwsVpc

/-- Errors raised by API calls are modelled as opaque strings. -/
abbrev Err := String

/-- One entry of the IpPermissions argument of authorize_security_group_ingress
(line 59 of the script). -/
structure IpPermission where
  ipProtocol : String
  fromPort : Nat
  toPort : Nat
  ipRanges : List String
deriving DecidableEq

/-- The EC2 API calls the script can issue, with their arguments.  The
delete/detach/revoke calls that a rollback would need are included so that
we can prove the script never issues them. -/
inductive ApiCall where
  | describeVpcsByTag (name : String)
  | createVpc (cidrBlock instanceTenancy : String)
  | createTags (resources : List String) (tags : List (String × String))
  | createInternetGateway
  | attachInternetGateway (igwId vpcId : String)
  | createSubnet (vpcId cidrBlock : String)
  | describeRouteTables (vpcId : String)
  | createRoute (routeTableId destCidr gatewayId : String)
  | associateRouteTable (routeTableId subnetId : String)
  | createSecurityGroup (groupName description vpcId : String)
  | authorizeSecurityGroupIngress (groupId : String) (ipPermissions : List IpPermission)
  | deleteVpc (vpcId : String)
  | detachInternetGateway (igwId vpcId : String)
  | deleteInternetGateway (igwId : String)
  | deleteSubnet (subnetId : String)
  | deleteRoute (routeTableId destCidr : String)
  | disassociateRouteTable (assocId : String)
  | deleteSecurityGroup (groupId : String)
  | revokeSecurityGroupIngress (groupId : String) (ipPermissions : List IpPermission)
  | deleteTags (resources : List String)
deriving DecidableEq

/-- Observable events of a run: the interactive read (line 4), the creation
of the boto3 client (line 12), each API call, and each printed line. -/
inductive Event where
  | inputRead (prompt value : String)
  | mkClient (service region : String)
  | api (c : ApiCall)
  | print (line : String)
deriving DecidableEq

/-- Final outcome of a run: normal completion, a propagated error, or fuel
exhaustion of the (in the source, unbounded) naming loop. -/
inductive Outcome where
  | ok
  | err (e : Err)
  | diverged
deriving DecidableEq

/-- The cloud endpoint: a response (or error) for every call the script can
make.  describe_vpcs and describe_route_tables answer with lists of resource
ids; the create calls answer with the id of the created resource. -/
@[ext]
structure Env where
  describeVpcs : String → Except Err (List String)
  createVpc : String → String → Except Err String
  createTags : List String → List (String × String) → Except Err Unit
  createInternetGateway : Except Err String
  attachInternetGateway : String → String → Except Err Unit
  createSubnet : String → String → Except Err String
  describeRouteTables : String → Except Err (List String)
  createRoute : String → String → String → Except Err Unit
  associateRouteTable : String → String → Except Err Unit
  createSecurityGroup : String → String → String → Except Err String
  authorizeSecurityGroupIngress : String → List IpPermission → Except Err Unit

/-- Responses, erased to one type so that the response of an environment to
an arbitrary call can be spoken about uniformly. -/
inductive Resp where
  | rStr (s : String)
  | rUnit
  | rList (l : List String)
deriving DecidableEq

/-- The response an environment gives to a call.  Calls the script never
issues (the rollback calls) get a fixed dummy answer. -/
def respOf (env : Env) : ApiCall → Except Err Resp
  | .describeVpcsByTag n => (env.describeVpcs n).map Resp.rList
  | .createVpc c t => (env.createVpc c t).map Resp.rStr
  | .createTags rs ts => (env.createTags rs ts).map fun _ => Resp.rUnit
  | .createInternetGateway => env.createInternetGateway.map Resp.rStr
  | .attachInternetGateway i v => (env.attachInternetGateway i v).map fun _ => Resp.rUnit
  | .createSubnet v c => (env.createSubnet v c).map Resp.rStr
  | .describeRouteTables v => (env.describeRouteTables v).map Resp.rList
  | .createRoute r dst g => (env.createRoute r dst g).map fun _ => Resp.rUnit
  | .associateRouteTable r s => (env.associateRouteTable r s).map fun _ => Resp.rUnit
  | .createSecurityGroup n d v => (env.createSecurityGroup n d v).map Resp.rStr
  | .authorizeSecurityGroupIngress s p =>
      (env.authorizeSecurityGroupIngress s p).map fun _ => Resp.rUnit
  | .deleteVpc _ => Except.ok Resp.rUnit
  | .detachInternetGateway _ _ => Except.ok Resp.rUnit
  | .deleteInternetGateway _ => Except.ok Resp.rUnit
  | .deleteSubnet _ => Except.ok Resp.rUnit
  | .deleteRoute _ _ => Except.ok Resp.rUnit
  | .disassociateRouteTable _ => Except.ok Resp.rUnit
  | .deleteSecurityGroup _ => Except.ok Resp.rUnit
  | .revokeSecurityGroupIngress _ _ => Except.ok Resp.rUnit
  | .deleteTags _ => Except.ok Resp.rUnit

/-- Line 7 of the script. -/
def base_name : String := "vpc_image"

/-- Line 8 of the script. -/
def cidr_block : String := "10.0.0.0/24"

/-- Line 9 of the script. -/
def tenancy : String := "default"

/-- The prompt of line 4. -/
def prompt_region : String := "Enter the AWS region to use (default: eu-west-1): "

/-- Line 4: the empty input line is falsy in Python, so the region falls back
to eu-west-1. -/
def regionOf (inputLine : String) : String :=
  if inputLine = "" then "eu-west-1" else inputLine

/-- Line 21: the candidate name with numeric suffix i. -/
def suffixName (base : String) (i : Nat) : String :=
  base ++ "_" ++ toString i

/-- Line 57. -/
def sg_description : String := "SSH access from anywhere"

/-- The single ingress permission of line 59: TCP port 22 from 0.0.0.0/0. -/
def sshPermission : IpPermission :=
  { ipProtocol := "tcp", fromPort := 22, toPort := 22, ipRanges := ["0.0.0.0/0"] }

/-- The error Python raises at line 51 when describe_route_tables returns no
route table and the script indexes the empty list. -/
def indexError : Err := "IndexError: list index out of range"

/-- An ASCII single quote, written via its character code. -/
def quoted (s : String) : String := "\x27" ++ s ++ "\x27"

/-- The five summary lines printed at lines 62 to 66. -/
def summaryLines (region vpc_name vpc_id igw_id subnet_id route_table_id sg_id : String) :
    List String :=
  [ "VPC " ++ quoted vpc_name ++ " created with ID " ++ quoted vpc_id ++
      " in region " ++ quoted region ++ "."
  , "Internet gateway created with ID " ++ quoted igw_id ++
      " and attached to VPC " ++ quoted vpc_name ++ "."
  , "Subnet created with ID " ++ quoted subnet_id ++ " in VPC " ++ quoted vpc_name ++ "."
  , "Route table " ++ quoted route_table_id ++ " associated with subnet " ++
      quoted subnet_id ++ "."
  , "Security group " ++ quoted sg_id ++ " created for VPC " ++ quoted vpc_name ++ "." ]

/-- Issue one API call: on an error response the run stops with that error;
on success the continuation runs and the call is prepended to its trace. -/
def stepCall {α : Type} (c : ApiCall) (resp : Except Err α)
    (k : α → List Event × Outcome) : List Event × Outcome :=
  match resp with
  | .error e => ([Event.api c], Outcome.err e)
  | .ok a => (Event.api c :: (k a).1, (k a).2)

/-- Lines 32 to 66: the linear provisioning sequence after the name was
chosen, followed by the five prints.  An empty describe_route_tables answer
makes line 51 raise an IndexError. -/
def provision (env : Env) (region vpc_name : String) : List Event × Outcome :=
  stepCall (.createVpc cidr_block tenancy) (env.createVpc cidr_block tenancy) fun vpc_id =>
  stepCall (.createTags [vpc_id] [("Name", vpc_name)])
      (env.createTags [vpc_id] [("Name", vpc_name)]) fun _ =>
  stepCall .createInternetGateway env.createInternetGateway fun igw_id =>
  stepCall (.attachInternetGateway igw_id vpc_id)
      (env.attachInternetGateway igw_id vpc_id) fun _ =>
  stepCall (.createTags [igw_id] [("Name", vpc_name ++ "-igw")])
      (env.createTags [igw_id] [("Name", vpc_name ++ "-igw")]) fun _ =>
  stepCall (.createSubnet vpc_id cidr_block) (env.createSubnet vpc_id cidr_block) fun subnet_id =>
  stepCall (.createTags [subnet_id] [("Name", vpc_name ++ "-subnet")])
      (env.createTags [subnet_id] [("Name", vpc_name ++ "-subnet")]) fun _ =>
  stepCall (.describeRouteTables vpc_id) (env.describeRouteTables vpc_id) fun rts =>
  match rts with
  | [] => ([], Outcome.err indexError)
  | route_table_id :: _ =>
    stepCall (.createRoute route_table_id "0.0.0.0/0" igw_id)
        (env.createRoute route_table_id "0.0.0.0/0" igw_id) fun _ =>
    stepCall (.associateRouteTable route_table_id subnet_id)
        (env.associateRouteTable route_table_id subnet_id) fun _ =>
    stepCall (.createTags [route_table_id] [("Name", vpc_name ++ "-rt")])
        (env.createTags [route_table_id] [("Name", vpc_name ++ "-rt")]) fun _ =>
    stepCall (.createSecurityGroup (vpc_name ++ "-sg") sg_description vpc_id)
        (env.createSecurityGroup (vpc_name ++ "-sg") sg_description vpc_id) fun sg_id =>
    stepCall (.authorizeSecurityGroupIngress sg_id [sshPermission])
        (env.authorizeSecurityGroupIngress sg_id [sshPermission]) fun _ =>
    stepCall (.createTags [sg_id] [("Name", vpc_name ++ "-sg")])
        (env.createTags [sg_id] [("Name", vpc_name ++ "-sg")]) fun _ =>
    ((summaryLines region vpc_name vpc_id igw_id subnet_id route_table_id sg_id).map
        Event.print, Outcome.ok)

/-- Result of the name-choosing phase (lines 14 to 29). -/
inductive NameRes where
  | found (name : String)
  | failed (e : Err)
  | out
deriving DecidableEq

/-- Lines 19 to 26: the while-True loop.  Each iteration probes
base_name_i; an empty answer breaks with that name, otherwise i is
incremented.  The loop of the source is unbounded, so it is embedded with a
fuel parameter; exhausted fuel reports NameRes.out. -/
def nameLoop (env : Env) : Nat → Nat → List Event × NameRes
  | 0, _ => ([], NameRes.out)
  | fuel + 1, i =>
    let new_name := suffixName base_name i
    match env.describeVpcs new_name with
    | .error e => ([Event.api (.describeVpcsByTag new_name)], NameRes.failed e)
    | .ok existing_vpcs =>
      if existing_vpcs.isEmpty then
        ([Event.api (.describeVpcsByTag new_name)], NameRes.found new_name)
      else
        let r := nameLoop env fuel (i + 1)
        (Event.api (.describeVpcsByTag new_name) :: r.1, r.2)

/-- Lines 14 to 29: probe the base name; if it is taken, run the loop
starting at suffix 1, else choose the base name itself. -/
def chooseName (env : Env) (fuel : Nat) : List Event × NameRes :=
  match env.describeVpcs base_name with
  | .error e => ([Event.api (.describeVpcsByTag base_name)], NameRes.failed e)
  | .ok existing_vpcs =>
    if existing_vpcs.isEmpty then
      ([Event.api (.describeVpcsByTag base_name)], NameRes.found base_name)
    else
      let r := nameLoop env fuel 1
      (Event.api (.describeVpcsByTag base_name) :: r.1, r.2)

/-- The whole script: read the region (line 4), create the client (line 12),
choose the name (lines 14 to 29), then provision and print (lines 32 to 66). -/
def runScript (env : Env) (inputLine : String) (fuel : Nat) : List Event × Outcome :=
  let region := regionOf inputLine
  let pre := [Event.inputRead prompt_region inputLine, Event.mkClient "ec2" region]
  let nm := chooseName env fuel
  match nm.2 with
  | NameRes.failed e => (pre ++ nm.1, Outcome.err e)
  | NameRes.out => (pre ++ nm.1, Outcome.diverged)
  | NameRes.found vpc_name =>
    let pr := provision env region vpc_name
    (pre ++ nm.1 ++ pr.1, pr.2)

/-- The eight create/configure calls of the spec: everything that creates or
mutates cloud state, as opposed to the describe queries and the tagging
calls. -/
def isCreateConfigure : ApiCall → Bool
  | .createVpc _ _ => true
  | .createInternetGateway => true
  | .attachInternetGateway _ _ => true
  | .createSubnet _ _ => true
  | .createRoute _ _ _ => true
  | .associateRouteTable _ _ => true
  | .createSecurityGroup _ _ _ => true
  | .authorizeSecurityGroupIngress _ _ => true
  | _ => false

/-- The tagging call. -/
def isTagCall : ApiCall → Bool
  | .createTags _ _ => true
  | _ => false

/-- Calls that would undo provisioning: delete, detach, disassociate,
revoke.  The script never issues any of them. -/
def isRollback : ApiCall → Bool
  | .deleteVpc _ => true
  | .detachInternetGateway _ _ => true
  | .deleteInternetGateway _ => true
  | .deleteSubnet _ => true
  | .deleteRoute _ _ => true
  | .disassociateRouteTable _ => true
  | .deleteSecurityGroup _ => true
  | .revokeSecurityGroupIngress _ _ => true
  | .deleteTags _ => true
  | _ => false

/-- Event classifiers. -/
def isCCEvent : Event → Bool
  | .api c => isCreateConfigure c
  | _ => false

def isTagEvent : Event → Bool
  | .api c => isTagCall c
  | _ => false

def isPrintEvent : Event → Bool
  | .print _ => true
  | _ => false

def isInputReadEvent : Event → Bool
  | .inputRead _ _ => true
  | _ => false

def isMkClientEvent : Event → Bool
  | .mkClient _ _ => true
  | _ => false

/-- Claim C3 as stated: every create/configure event is immediately followed
by a tagging event. -/
def everyCreateImmediatelyTagged (tr : List Event) : Prop :=
  ∀ k, k < tr.length - 1 →
    isCCEvent (tr.getD k (Event.print "")) = true →
    isTagEvent (tr.getD (k + 1) (Event.print "")) = true

instance (tr : List Event) : Decidable (everyCreateImmediatelyTagged tr) :=
  inferInstanceAs (Decidable (∀ k, k < tr.length - 1 →
    isCCEvent (tr.getD k (Event.print "")) = true →
    isTagEvent (tr.getD (k + 1) (Event.print "")) = true))

/-- Claim C4: if the environment answered some issued call with an error,
then the run ends in exactly that error and the failing call is the last
event of the trace (nothing is issued after it). -/
def stopsAtFirstError (env : Env) (p : List Event × Outcome) : Prop :=
  ∀ c e, Event.api c ∈ p.1 → respOf env c = Except.error e →
    p.2 = Outcome.err e ∧ p.1.getLast? = some (Event.api c)

/-- Data for an environment whose calls all succeed: the tag-query answers
and the ids handed out by the create calls.  describe_route_tables answers
with a nonempty list headed by rtId. -/
structure EnvData where
  tagged : String → List String
  vpcId : String
  igwId : String
  subnetId : String
  rtId : String
  rtRest : List String
  sgId : String

/-- The all-successful environment built from such data. -/
def okEnv (d : EnvData) : Env :=
  { describeVpcs := fun n => Except.ok (d.tagged n)
  , createVpc := fun _ _ => Except.ok d.vpcId
  , createTags := fun _ _ => Except.ok ()
  , createInternetGateway := Except.ok d.igwId
  , attachInternetGateway := fun _ _ => Except.ok ()
  , createSubnet := fun _ _ => Except.ok d.subnetId
  , describeRouteTables := fun _ => Except.ok (d.rtId :: d.rtRest)
  , createRoute := fun _ _ _ => Except.ok ()
  , associateRouteTable := fun _ _ => Except.ok ()
  , createSecurityGroup := fun _ _ _ => Except.ok d.sgId
  , authorizeSecurityGroupIngress := fun _ _ => Except.ok () }

/-- A describe probe event. -/
def probe (n : String) : Event := Event.api (ApiCall.describeVpcsByTag n)

/-- The name the script chooses when i0 is the least free suffix: the base
name if the base name is untagged, else base_name_i0. -/
def chosenOf (d : EnvData) (i0 : Nat) : String :=
  if (d.tagged base_name).isEmpty then base_name else suffixName base_name i0

/-- The describe probes of the name-choosing phase in the successful run. -/
def nameProbes (d : EnvData) (i0 : Nat) : List Event :=
  if (d.tagged base_name).isEmpty then [probe base_name]
  else probe base_name :: (List.range' 1 i0).map fun j => probe (suffixName base_name j)

/-- The fourteen API events of the successful provisioning phase. -/
def provisionCalls (d : EnvData) (vpc_name : String) : List Event :=
  [ Event.api (.createVpc cidr_block tenancy)
  , Event.api (.createTags [d.vpcId] [("Name", vpc_name)])
  , Event.api .createInternetGateway
  , Event.api (.attachInternetGateway d.igwId d.vpcId)
  , Event.api (.createTags [d.igwId] [("Name", vpc_name ++ "-igw")])
  , Event.api (.createSubnet d.vpcId cidr_block)
  , Event.api (.createTags [d.subnetId] [("Name", vpc_name ++ "-subnet")])
  , Event.api (.describeRouteTables d.vpcId)
  , Event.api (.createRoute d.rtId "0.0.0.0/0" d.igwId)
  , Event.api (.associateRouteTable d.rtId d.subnetId)
  , Event.api (.createTags [d.rtId] [("Name", vpc_name ++ "-rt")])
  , Event.api (.createSecurityGroup (vpc_name ++ "-sg") sg_description d.vpcId)
  , Event.api (.authorizeSecurityGroupIngress d.sgId [sshPermission])
  , Event.api (.createTags [d.sgId] [("Name", vpc_name ++ "-sg")]) ]

/-- The whole trace of the successful provisioning phase. -/
def provTrace (d : EnvData) (region vpc_name : String) : List Event :=
  provisionCalls d vpc_name ++
    (summaryLines region vpc_name d.vpcId d.igwId d.subnetId d.rtId d.sgId).map Event.print

/-- Concrete all-successful environment data with nothing tagged. -/
def d0 : EnvData :=
  { tagged := fun _ => []
  , vpcId := "vpc-1"
  , igwId := "igw-1"
  , subnetId := "subnet-1"
  , rtId := "rtb-1"
  , rtRest := []
  , sgId := "sg-1" }

/-- Environment data where the base name and suffix 1 are taken and suffix 2
is free. -/
def dW : EnvData :=
  { d0 with tagged := fun n => if n = "vpc_image" ∨ n = "vpc_image_1" then ["vpc-0"] else [] }

/-- An environment that fails at create_subnet and succeeds elsewhere. -/
def envFail : Env :=
  { okEnv d0 with createSubnet := fun _ _ => Except.error "boom" }

/-! ## Helper lemmas -/

theorem except_map_inj {α : Type} {f : α → Resp} (hf : Function.Injective f)
    {a b : Except Err α} (h : a.map f = b.map f) : a = b := by
  cases a <;> cases b <;> simp only [Except.map] at h <;> try cases h
  · rfl
  · rename_i x y
    have : x = y := hf (by injection h)
    rw [this]

theorem rStr_inj : Function.Injective Resp.rStr := by
  intro a b h; injection h

theorem rList_inj : Function.Injective Resp.rList := by
  intro a b h; injection h

theorem rUnitFun_inj : Function.Injective (fun _ : Unit => Resp.rUnit) := by
  intro a b _; rfl

/-- Strong membership inversion for stepCall: an event of its trace is either
the call itself, or (the call succeeded and) an event of the continuation. -/
theorem mem_stepCall {α : Type} {c : ApiCall} {resp : Except Err α}
    {k : α → List Event × Outcome} {ev : Event}
    (h : ev ∈ (stepCall c resp k).1) :
    ev = Event.api c ∨ ∃ a, resp = Except.ok a ∧ ev ∈ (k a).1 := by
  cases resp with
  | error e => simp [stepCall] at h; exact Or.inl h
  | ok a =>
    simp only [stepCall, List.mem_cons] at h
    rcases h with h | h
    · exact Or.inl h
    · exact Or.inr ⟨a, rfl, h⟩

/-- stepCall preserves the stop-at-first-error property, given that the
response passed to it is the environment response of its call. -/
theorem stepCall_stops {α : Type} (env : Env) (c : ApiCall) (resp : Except Err α)
    (f : α → Resp) (hresp : respOf env c = resp.map f)
    (k : α → List Event × Outcome)
    (hk : ∀ a, stopsAtFirstError env (k a)) :
    stopsAtFirstError env (stepCall c resp k) := by
  intro c' e hmem herr
  cases hr : resp with
  | error e0 =>
    rw [hr] at hresp
    simp only [stepCall, hr, List.mem_singleton] at hmem
    cases hmem
    rw [hresp] at herr
    simp only [Except.map] at herr
    cases herr
    simp [stepCall, hr]
  | ok a =>
    rw [hr] at hresp
    simp only [stepCall, hr, List.mem_cons] at hmem ⊢
    rcases hmem with hmem | hmem
    · cases hmem
      rw [hresp] at herr
      simp [Except.map] at herr
    · obtain ⟨hout, hlast⟩ := hk a c' e hmem herr
      refine ⟨hout, ?_⟩
      have hne : (k a).1 ≠ [] := List.ne_nil_of_mem hmem
      obtain ⟨b, l, hb⟩ : ∃ b l, (k a).1 = b :: l := by
        cases hkl : (k a).1 with
        | nil => exact absurd hkl hne
        | cons b l => exact ⟨b, l, rfl⟩
      rw [hb] at hlast ⊢
      rw [List.getLast?_cons_cons]
      exact hlast

/-- A trace of print events alone stops at first error vacuously. -/
theorem stops_of_prints (env : Env) (ls : List String) (o : Outcome) :
    stopsAtFirstError env (ls.map Event.print, o) := by
  intro c e hmem _
  exfalso
  simp only [List.mem_map] at hmem
  obtain ⟨s, _, hs⟩ := hmem
  cases hs

/-- The empty trace stops at first error vacuously. -/
theorem stops_of_nil (env : Env) (o : Outcome) :
    stopsAtFirstError env ([], o) := by
  intro c e hmem _
  simp at hmem

/-- Every event of the naming loop is a describe probe. -/
theorem nameLoop_events (env : Env) :
    ∀ fuel i ev, ev ∈ (nameLoop env fuel i).1 →
      ∃ n, ev = Event.api (ApiCall.describeVpcsByTag n) := by
  intro fuel
  induction fuel with
  | zero => intro i ev h; simp [nameLoop] at h
  | succ fuel ih =>
    intro i ev h
    rcases hd : env.describeVpcs (suffixName base_name i) with e | vpcs
    · simp [nameLoop, hd] at h
      exact ⟨_, h⟩
    · by_cases he : vpcs.isEmpty
      · simp [nameLoop, hd, he] at h
        exact ⟨_, h⟩
      · simp only [nameLoop, hd, he, Bool.false_eq_true, if_false, List.mem_cons] at h
        rcases h with h | h
        · exact ⟨_, h⟩
        · exact ih (i + 1) ev h

/-- The naming loop stops at the first error: if an issued probe got an error
answer, the loop result is that error and the probe is the last event. -/
theorem nameLoop_stops (env : Env) :
    ∀ fuel i c e, Event.api c ∈ (nameLoop env fuel i).1 →
      respOf env c = Except.error e →
      (nameLoop env fuel i).2 = NameRes.failed e ∧
      (nameLoop env fuel i).1.getLast? = some (Event.api c) := by
  intro fuel
  induction fuel with
  | zero => intro i c e h _; simp [nameLoop] at h
  | succ fuel ih =>
    intro i c e hmem herr
    rcases hd : env.describeVpcs (suffixName base_name i) with e0 | vpcs
    · simp only [nameLoop, hd, List.mem_singleton] at hmem ⊢
      cases hmem
      simp only [respOf, hd, Except.map] at herr
      cases herr
      exact ⟨rfl, rfl⟩
    · by_cases he : vpcs.isEmpty
      · simp only [nameLoop, hd, he, if_true, List.mem_singleton] at hmem
        cases hmem
        simp [respOf, hd, Except.map] at herr
      · simp only [nameLoop, hd, he, Bool.false_eq_true, if_false, List.mem_cons] at hmem ⊢
        rcases hmem with hmem | hmem
        · cases hmem
          simp [respOf, hd, Except.map] at herr
        · obtain ⟨hout, hlast⟩ := ih (i + 1) c e hmem herr
          refine ⟨hout, ?_⟩
          obtain ⟨b, l, hb⟩ : ∃ b l, (nameLoop env fuel (i + 1)).1 = b :: l := by
            cases hkl : (nameLoop env fuel (i + 1)).1 with
            | nil => rw [hkl] at hmem; simp at hmem
            | cons b l => exact ⟨b, l, rfl⟩
          rw [hb] at hlast ⊢
          rw [List.getLast?_cons_cons]
          exact hlast

/-- Every event of the name-choosing phase is a describe probe. -/
theorem chooseName_events (env : Env) (fuel : Nat) :
    ∀ ev ∈ (chooseName env fuel).1, ∃ n, ev = Event.api (ApiCall.describeVpcsByTag n) := by
  intro ev h
  rcases hd : env.describeVpcs base_name with e | vpcs
  · simp [chooseName, hd] at h
    exact ⟨_, h⟩
  · by_cases he : vpcs.isEmpty
    · simp [chooseName, hd, he] at h
      exact ⟨_, h⟩
    · simp only [chooseName, hd, he, Bool.false_eq_true, if_false, List.mem_cons] at h
      rcases h with h | h
      · exact ⟨_, h⟩
      · exact nameLoop_events env fuel 1 ev h

/-- The name-choosing phase stops at the first error. -/
theorem chooseName_stops (env : Env) (fuel : Nat) :
    ∀ c e, Event.api c ∈ (chooseName env fuel).1 →
      respOf env c = Except.error e →
      (chooseName env fuel).2 = NameRes.failed e ∧
      (chooseName env fuel).1.getLast? = some (Event.api c) := by
  intro c e hmem herr
  rcases hd : env.describeVpcs base_name with e0 | vpcs
  · simp only [chooseName, hd, List.mem_singleton] at hmem ⊢
    cases hmem
    simp only [respOf, hd, Except.map] at herr
    cases herr
    exact ⟨rfl, rfl⟩
  · by_cases he : vpcs.isEmpty
    · simp only [chooseName, hd, he, if_true, List.mem_singleton] at hmem
      cases hmem
      simp [respOf, hd, Except.map] at herr
    · simp only [chooseName, hd, he, Bool.false_eq_true, if_false, List.mem_cons] at hmem ⊢
      rcases hmem with hmem | hmem
      · cases hmem
        simp [respOf, hd, Except.map] at herr
      · obtain ⟨hout, hlast⟩ := nameLoop_stops env fuel 1 c e hmem herr
        refine ⟨hout, ?_⟩
        obtain ⟨b, l, hb⟩ : ∃ b l, (nameLoop env fuel 1).1 = b :: l := by
          cases hkl : (nameLoop env fuel 1).1 with
          | nil => rw [hkl] at hmem; simp at hmem
          | cons b l => exact ⟨b, l, rfl⟩
        rw [hb] at hlast ⊢
        rw [List.getLast?_cons_cons]
        exact hlast

/-- What an event of the provisioning phase can be: a print, or an API call
that is never a rollback call, whose ingress authorization (if it is one)
carries exactly the SSH permission for the created group in the created VPC,
and whose subnet creation (if it is one) uses the canonical CIDR block. -/
theorem provision_mem (env : Env) (region vpc_name : String) :
    ∀ ev ∈ (provision env region vpc_name).1,
      (∃ s, ev = Event.print s) ∨
      ∃ c, ev = Event.api c ∧ isRollback c = false ∧
        (∀ sg perms, c = ApiCall.authorizeSecurityGroupIngress sg perms →
          perms = [sshPermission] ∧
          ∃ vpcId, env.createVpc cidr_block tenancy = Except.ok vpcId ∧
            env.createSecurityGroup (vpc_name ++ "-sg") sg_description vpcId =
              Except.ok sg) ∧
        (∀ v cb, c = ApiCall.createSubnet v cb → cb = cidr_block) := by
  intro ev h
  rcases mem_stepCall h with rfl | ⟨vpc_id, hvpc, h⟩
  · exact Or.inr ⟨_, rfl, rfl, fun sg perms hcon => by simp at hcon,
      fun v cb hcon => by simp at hcon⟩
  rcases mem_stepCall h with rfl | ⟨_, _, h⟩
  · exact Or.inr ⟨_, rfl, rfl, fun sg perms hcon => by simp at hcon,
      fun v cb hcon => by simp at hcon⟩
  rcases mem_stepCall h with rfl | ⟨igw_id, higw, h⟩
  · exact Or.inr ⟨_, rfl, rfl, fun sg perms hcon => by simp at hcon,
      fun v cb hcon => by simp at hcon⟩
  rcases mem_stepCall h with rfl | ⟨_, _, h⟩
  · exact Or.inr ⟨_, rfl, rfl, fun sg perms hcon => by simp at hcon,
      fun v cb hcon => by simp at hcon⟩
  rcases mem_stepCall h with rfl | ⟨_, _, h⟩
  · exact Or.inr ⟨_, rfl, rfl, fun sg perms hcon => by simp at hcon,
      fun v cb hcon => by simp at hcon⟩
  rcases mem_stepCall h with rfl | ⟨subnet_id, hsub, h⟩
  · refine Or.inr ⟨_, rfl, rfl, fun sg perms hcon => by simp at hcon,
      fun v cb hcon => ?_⟩
    injection hcon with hv hc
    exact hc.symm
  rcases mem_stepCall h with rfl | ⟨_, _, h⟩
  · exact Or.inr ⟨_, rfl, rfl, fun sg perms hcon => by simp at hcon,
      fun v cb hcon => by simp at hcon⟩
  rcases mem_stepCall h with rfl | ⟨rts, hrts, h⟩
  · exact Or.inr ⟨_, rfl, rfl, fun sg perms hcon => by simp at hcon,
      fun v cb hcon => by simp at hcon⟩
  cases rts with
  | nil => simp at h
  | cons route_table_id rest =>
    rcases mem_stepCall h with rfl | ⟨_, _, h⟩
    · exact Or.inr ⟨_, rfl, rfl, fun sg perms hcon => by simp at hcon,
        fun v cb hcon => by simp at hcon⟩
    rcases mem_stepCall h with rfl | ⟨_, _, h⟩
    · exact Or.inr ⟨_, rfl, rfl, fun sg perms hcon => by simp at hcon,
        fun v cb hcon => by simp at hcon⟩
    rcases mem_stepCall h with rfl | ⟨_, _, h⟩
    · exact Or.inr ⟨_, rfl, rfl, fun sg perms hcon => by simp at hcon,
        fun v cb hcon => by simp at hcon⟩
    rcases mem_stepCall h with rfl | ⟨sg_id, hsg, h⟩
    · exact Or.inr ⟨_, rfl, rfl, fun sg perms hcon => by simp at hcon,
        fun v cb hcon => by simp at hcon⟩
    rcases mem_stepCall h with rfl | ⟨_, _, h⟩
    · refine Or.inr ⟨_, rfl, rfl, fun sg perms hcon => ?_,
        fun v cb hcon => by simp at hcon⟩
      injection hcon with hs hp
      exact ⟨hp.symm, vpc_id, hvpc, hs ▸ hsg⟩
    rcases mem_stepCall h with rfl | ⟨_, _, h⟩
    · exact Or.inr ⟨_, rfl, rfl, fun sg perms hcon => by simp at hcon,
        fun v cb hcon => by simp at hcon⟩
    · simp only [List.mem_map] at h
      obtain ⟨s, _, hs⟩ := h
      exact Or.inl ⟨s, hs.symm⟩

/-- The provisioning phase stops at the first error. -/
theorem provision_stops (env : Env) (region vpc_name : String) :
    stopsAtFirstError env (provision env region vpc_name) := by
  unfold provision
  refine stepCall_stops env _ _ Resp.rStr ?_ _ fun vpc_id => ?_
  · rfl
  refine stepCall_stops env _ _ (fun _ => Resp.rUnit) ?_ _ fun _ => ?_
  · rfl
  refine stepCall_stops env _ _ Resp.rStr ?_ _ fun igw_id => ?_
  · rfl
  refine stepCall_stops env _ _ (fun _ => Resp.rUnit) ?_ _ fun _ => ?_
  · rfl
  refine stepCall_stops env _ _ (fun _ => Resp.rUnit) ?_ _ fun _ => ?_
  · rfl
  refine stepCall_stops env _ _ Resp.rStr ?_ _ fun subnet_id => ?_
  · rfl
  refine stepCall_stops env _ _ (fun _ => Resp.rUnit) ?_ _ fun _ => ?_
  · rfl
  refine stepCall_stops env _ _ Resp.rList ?_ _ fun rts => ?_
  · rfl
  cases rts with
  | nil => exact stops_of_nil env _
  | cons route_table_id rest =>
    refine stepCall_stops env _ _ (fun _ => Resp.rUnit) ?_ _ fun _ => ?_
    · rfl
    refine stepCall_stops env _ _ (fun _ => Resp.rUnit) ?_ _ fun _ => ?_
    · rfl
    refine stepCall_stops env _ _ (fun _ => Resp.rUnit) ?_ _ fun _ => ?_
    · rfl
    refine stepCall_stops env _ _ Resp.rStr ?_ _ fun sg_id => ?_
    · rfl
    refine stepCall_stops env _ _ (fun _ => Resp.rUnit) ?_ _ fun _ => ?_
    · rfl
    refine stepCall_stops env _ _ (fun _ => Resp.rUnit) ?_ _ fun _ => ?_
    · rfl
    exact stops_of_prints env _ _

/-- On an all-successful environment the provisioning phase performs exactly
the fourteen calls and the five prints, in order, and succeeds. -/
theorem provision_okEnv (d : EnvData) (region vpc_name : String) :
    provision (okEnv d) region vpc_name = (provTrace d region vpc_name, Outcome.ok) := by
  simp [provision, stepCall, okEnv, provTrace, provisionCalls]

/-- On an all-successful environment, if i0 is the least free suffix, the
loop started at i visits exactly the suffixes i, i+1, ..., i0 and settles on
base_name_i0 (given enough fuel). -/
theorem nameLoop_okEnv (d : EnvData) (i0 : Nat)
    (h2 : (d.tagged (suffixName base_name i0)).isEmpty = true)
    (h3 : ∀ j, j < i0 → 1 ≤ j → (d.tagged (suffixName base_name j)).isEmpty = false) :
    ∀ fuel i, 1 ≤ i → i ≤ i0 → i0 + 1 - i ≤ fuel →
      nameLoop (okEnv d) fuel i =
        ((List.range' i (i0 + 1 - i)).map fun j => probe (suffixName base_name j),
          NameRes.found (suffixName base_name i0)) := by
  have hdesc : ∀ n, (okEnv d).describeVpcs n = Except.ok (d.tagged n) := fun _ => rfl
  intro fuel
  induction fuel with
  | zero => intro i h1i hii0 hf; omega
  | succ fuel ih =>
    intro i h1i hii0 hf
    by_cases hei : i = i0
    · subst hei
      have hn : i + 1 - i = 1 := by omega
      rw [hn]
      simp [nameLoop, hdesc, h2, List.range', probe]
    · have hlt : i < i0 := lt_of_le_of_ne hii0 hei
      have htaken := h3 i hlt h1i
      have hn : i0 + 1 - i = (i0 + 1 - (i + 1)) + 1 := by omega
      rw [hn]
      simp only [nameLoop, hdesc, htaken, Bool.false_eq_true, if_false]
      rw [ih (i + 1) (by omega) (by omega) (by omega)]
      simp [List.range', probe]

/-- On an all-successful environment the name-choosing phase performs the
probes of nameProbes and settles on chosenOf. -/
theorem chooseName_okEnv (d : EnvData) (fuel i0 : Nat) (h1 : 1 ≤ i0)
    (h2 : (d.tagged (suffixName base_name i0)).isEmpty = true)
    (h3 : ∀ j, j < i0 → 1 ≤ j → (d.tagged (suffixName base_name j)).isEmpty = false)
    (hfuel : i0 ≤ fuel) :
    chooseName (okEnv d) fuel = (nameProbes d i0, NameRes.found (chosenOf d i0)) := by
  have hdesc : ∀ n, (okEnv d).describeVpcs n = Except.ok (d.tagged n) := fun _ => rfl
  by_cases hb : (d.tagged base_name).isEmpty
  · simp [chooseName, hdesc, hb, nameProbes, chosenOf, probe]
  · have hloop := nameLoop_okEnv d i0 h2 h3 fuel 1 le_rfl h1 (by omega)
    simp only [chooseName, hdesc, hb, Bool.false_eq_true, if_false]
    rw [hloop]
    simp only [Nat.add_sub_cancel]
    simp [nameProbes, chosenOf, hb, probe]

/-- The full successful run: input read, client creation, the name probes,
the provisioning calls, the prints; outcome ok. -/
theorem runScript_okEnv (d : EnvData) (inputLine : String) (fuel i0 : Nat) (h1 : 1 ≤ i0)
    (h2 : (d.tagged (suffixName base_name i0)).isEmpty = true)
    (h3 : ∀ j, j < i0 → 1 ≤ j → (d.tagged (suffixName base_name j)).isEmpty = false)
    (hfuel : i0 ≤ fuel) :
    runScript (okEnv d) inputLine fuel =
      (Event.inputRead prompt_region inputLine ::
        Event.mkClient "ec2" (regionOf inputLine) ::
        (nameProbes d i0 ++ provTrace d (regionOf inputLine) (chosenOf d i0)),
        Outcome.ok) := by
  simp only [runScript]
  rw [chooseName_okEnv d fuel i0 h1 h2 h3 hfuel]
  simp [provision_okEnv, List.append_assoc]

/-! ## The claims -/

/-- Claim C1: given the set of existing tagged VPCs, the chosen VPC name is
the base name when no existing VPC is tagged with it, and otherwise the base
name with the smallest integer suffix i0 at least 1 whose suffixed name is
untagged.  The hypotheses say that i0 is that smallest free suffix and that
the loop is given at least i0 iterations of fuel. -/
theorem claim_C1 (d : EnvData) (fuel i0 : Nat) (h1 : 1 ≤ i0)
    (h2 : (d.tagged (suffixName base_name i0)).isEmpty = true)
    (h3 : ∀ j, j < i0 → 1 ≤ j → (d.tagged (suffixName base_name j)).isEmpty = false)
    (hfuel : i0 ≤ fuel) :
    (chooseName (okEnv d) fuel).2 =
      NameRes.found (if (d.tagged base_name).isEmpty then base_name
        else suffixName base_name i0) := by
  rw [chooseName_okEnv d fuel i0 h1 h2 h3 hfuel]
  rfl

theorem claim_C1_witness :
    (chooseName (okEnv dW) 2).2 = NameRes.found "vpc_image_2" := by
  have h := claim_C1 dW 2 2 (by decide) (by decide) (by decide) (by decide)
  rw [h]
  decide

/-- Claim C2: whenever some suffixed name is free and i0 is the least free
suffix, the while-True loop (run with any fuel allowance of at least i0
iterations, fuel being the embedding of the unbounded loop) terminates,
probing the suffixes 1, 2, ..., i0 in this order and stopping at the first
unused name. -/
theorem claim_C2 (d : EnvData) (fuel i0 : Nat) (h1 : 1 ≤ i0)
    (h2 : (d.tagged (suffixName base_name i0)).isEmpty = true)
    (h3 : ∀ j, j < i0 → 1 ≤ j → (d.tagged (suffixName base_name j)).isEmpty = false)
    (hfuel : i0 ≤ fuel) :
    nameLoop (okEnv d) fuel 1 =
      ((List.range' 1 i0).map fun j =>
          Event.api (ApiCall.describeVpcsByTag (suffixName base_name j)),
        NameRes.found (suffixName base_name i0)) := by
  have h := nameLoop_okEnv d i0 h2 h3 fuel 1 le_rfl h1 (by omega)
  simpa [probe, Nat.add_sub_cancel] using h

theorem claim_C2_witness :
    nameLoop (okEnv dW) 2 1 =
      ([Event.api (ApiCall.describeVpcsByTag "vpc_image_1"),
        Event.api (ApiCall.describeVpcsByTag "vpc_image_2")],
        NameRes.found "vpc_image_2") := by
  have h := claim_C2 dW 2 2 (by decide) (by decide) (by decide) (by decide)
  rw [h]
  decide

/-- Claim C3, counterexample: on a fully successful run it is NOT the case
that (the provisioning phase issues exactly eight create/configure calls
and) every create/configure call is immediately followed by a tagging call:
create_internet_gateway is immediately followed by attach_internet_gateway. -/
theorem claim_C3_counterexample :
    ¬ ((provision (okEnv d0) "eu-west-1" "vpc_image").1.countP isCCEvent = 8 ∧
      everyCreateImmediatelyTagged (provision (okEnv d0) "eu-west-1" "vpc_image").1) := by
  decide

/-- Claim C3, amended: after the name is chosen the script issues exactly
eight unconditional create/configure calls and exactly five tagging calls;
every tagging call immediately follows a create/configure call (but three of
the eight create/configure calls are immediately followed by the next
configure call on the same resource rather than by a tagging call). -/
theorem claim_C3_amended (d : EnvData) (region vpc_name : String) :
    (provision (okEnv d) region vpc_name).1.countP isCCEvent = 8 ∧
    (provision (okEnv d) region vpc_name).1.countP isTagEvent = 5 ∧
    ∀ k, k < (provision (okEnv d) region vpc_name).1.length →
      isTagEvent ((provision (okEnv d) region vpc_name).1.getD k (Event.print "")) = true →
      1 ≤ k ∧
        isCCEvent ((provision (okEnv d) region vpc_name).1.getD (k - 1) (Event.print "")) =
          true := by
  rw [provision_okEnv]
  refine ⟨?_, ?_, ?_⟩
  · simp [provTrace, provisionCalls, summaryLines, List.countP_cons, isCCEvent,
      isCreateConfigure]
  · simp [provTrace, provisionCalls, summaryLines, List.countP_cons, isTagEvent, isTagCall]
  · intro k hk htag
    have hk19 : k < 19 := by
      simpa [provTrace, provisionCalls, summaryLines] using hk
    interval_cases k <;>
      simp_all [provTrace, provisionCalls, summaryLines, isTagEvent, isTagCall,
        isCCEvent, isCreateConfigure, List.getD]

theorem claim_C3_amended_witness :
    (provision (okEnv d0) "eu-west-1" "vpc_image").1.countP isCCEvent = 8 ∧
    (provision (okEnv d0) "eu-west-1" "vpc_image").1.countP isTagEvent = 5 := by
  have h := claim_C3_amended d0 "eu-west-1" "vpc_image"
  exact ⟨h.1, h.2.1⟩

/-- Claim C4: on any run (any environment, input and fuel), no rollback call
(delete, detach, disassociate, revoke) is ever issued, so everything created
before a failure stays created; and if the environment answered any issued
call with an error, the run ends in exactly that error and the failing call
is the last event of the trace, so the error propagates with no retry. -/
theorem claim_C4 (env : Env) (inputLine : String) (fuel : Nat) :
    (∀ c, Event.api c ∈ (runScript env inputLine fuel).1 → isRollback c = false) ∧
    stopsAtFirstError env (runScript env inputLine fuel) := by
  rcases hcn : chooseName env fuel with ⟨tr1, r⟩
  have htr1 : ∀ ev ∈ tr1, ∃ n, ev = Event.api (ApiCall.describeVpcsByTag n) := by
    intro ev hev
    exact chooseName_events env fuel ev (by rw [hcn]; exact hev)
  have htr1stops : ∀ c e, Event.api c ∈ tr1 → respOf env c = Except.error e →
      r = NameRes.failed e ∧ tr1.getLast? = some (Event.api c) := by
    intro c e hc herr
    have := chooseName_stops env fuel c e (by rw [hcn]; exact hc) herr
    rw [hcn] at this
    exact this
  cases r with
  | failed e0 =>
    simp only [runScript, hcn]
    constructor
    · intro c hc
      simp only [List.cons_append, List.nil_append, List.mem_cons] at hc
      rcases hc with hc | hc | hc
      · cases hc
      · cases hc
      · obtain ⟨n, hn⟩ := htr1 _ hc
        cases hn
        rfl
    · intro c e hc herr
      simp only [List.cons_append, List.nil_append, List.mem_cons] at hc
      rcases hc with hc | hc | hc
      · cases hc
      · cases hc
      · obtain ⟨hr, hlast⟩ := htr1stops c e hc herr
        cases hr
        refine ⟨rfl, ?_⟩
        have hne : tr1 ≠ [] := List.ne_nil_of_mem hc
        simp only [List.cons_append, List.nil_append]
        rw [show (Event.inputRead prompt_region inputLine ::
            Event.mkClient "ec2" (regionOf inputLine) :: tr1) =
            [Event.inputRead prompt_region inputLine,
              Event.mkClient "ec2" (regionOf inputLine)] ++ tr1 from rfl]
        rw [List.getLast?_append_of_ne_nil _ hne]
        exact hlast
  | out =>
    simp only [runScript, hcn]
    constructor
    · intro c hc
      simp only [List.cons_append, List.nil_append, List.mem_cons] at hc
      rcases hc with hc | hc | hc
      · cases hc
      · cases hc
      · obtain ⟨n, hn⟩ := htr1 _ hc
        cases hn
        rfl
    · intro c e hc herr
      simp only [List.cons_append, List.nil_append, List.mem_cons] at hc
      rcases hc with hc | hc | hc
      · cases hc
      · cases hc
      · obtain ⟨hr, _⟩ := htr1stops c e hc herr
        cases hr
  | found vpc_name =>
    have hpr := provision_mem env (regionOf inputLine) vpc_name
    have hprstops := provision_stops env (regionOf inputLine) vpc_name
    simp only [runScript, hcn]
    constructor
    · intro c hc
      simp only [List.cons_append, List.nil_append, List.append_assoc,
        List.mem_cons, List.mem_append] at hc
      rcases hc with hc | hc | hc | hc
      · cases hc
      · cases hc
      · obtain ⟨n, hn⟩ := htr1 _ hc
        cases hn
        rfl
      · rcases hpr _ hc with ⟨s, hs⟩ | ⟨c', hc', hroll, _, _⟩
        · cases hs
        · cases hc'
          exact hroll
    · intro c e hc herr
      simp only [List.cons_append, List.nil_append, List.append_assoc,
        List.mem_cons, List.mem_append] at hc
      rcases hc with hc | hc | hc | hc
      · cases hc
      · cases hc
      · obtain ⟨hr, _⟩ := htr1stops c e hc herr
        cases hr
      · obtain ⟨hout, hlast⟩ := hprstops c e hc herr
        refine ⟨hout, ?_⟩
        have hne : (provision env (regionOf inputLine) vpc_name).1 ≠ [] :=
          List.ne_nil_of_mem hc
        simp only [List.cons_append, List.nil_append]
        rw [show (Event.inputRead prompt_region inputLine ::
            Event.mkClient "ec2" (regionOf inputLine) ::
            (tr1 ++ (provision env (regionOf inputLine) vpc_name).1)) =
            ([Event.inputRead prompt_region inputLine,
              Event.mkClient "ec2" (regionOf inputLine)] ++ tr1) ++
              (provision env (regionOf inputLine) vpc_name).1 by simp]
        rw [List.getLast?_append_of_ne_nil _ hne]
        exact hlast

theorem claim_C4_witness :
    (runScript envFail "" 3).2 = Outcome.err "boom" ∧
    (runScript envFail "" 3).1.getLast? =
      some (Event.api (ApiCall.createSubnet "vpc-1" cidr_block)) := by
  have h := claim_C4 envFail "" 3
  exact h.2 (ApiCall.createSubnet "vpc-1" cidr_block) "boom" (by decide) rfl

/-- Claim C5: on a run in which every API call succeeds, the trace is the
non-print events followed by exactly the five summary print lines: every
print occurs after the last API call, and nothing is printed before
provisioning completes. -/
theorem claim_C5 (d : EnvData) (inputLine : String) (fuel i0 : Nat) (h1 : 1 ≤ i0)
    (h2 : (d.tagged (suffixName base_name i0)).isEmpty = true)
    (h3 : ∀ j, j < i0 → 1 ≤ j → (d.tagged (suffixName base_name j)).isEmpty = false)
    (hfuel : i0 ≤ fuel) :
    runScript (okEnv d) inputLine fuel =
      ((Event.inputRead prompt_region inputLine ::
          Event.mkClient "ec2" (regionOf inputLine) ::
          (nameProbes d i0 ++ provisionCalls d (chosenOf d i0))) ++
        (summaryLines (regionOf inputLine) (chosenOf d i0) d.vpcId d.igwId d.subnetId
            d.rtId d.sgId).map Event.print,
        Outcome.ok) ∧
    (summaryLines (regionOf inputLine) (chosenOf d i0) d.vpcId d.igwId d.subnetId
        d.rtId d.sgId).length = 5 ∧
    ∀ ev ∈ Event.inputRead prompt_region inputLine ::
        Event.mkClient "ec2" (regionOf inputLine) ::
        (nameProbes d i0 ++ provisionCalls d (chosenOf d i0)),
      isPrintEvent ev = false := by
  refine ⟨?_, by simp [summaryLines], ?_⟩
  · rw [runScript_okEnv d inputLine fuel i0 h1 h2 h3 hfuel]
    simp [provTrace, List.append_assoc]
  · intro ev hev
    simp only [List.mem_cons, List.mem_append] at hev
    rcases hev with rfl | rfl | hev | hev
    · rfl
    · rfl
    · by_cases hb : (d.tagged base_name).isEmpty
      · simp only [nameProbes, hb, if_true, List.mem_singleton] at hev
        cases hev
        rfl
      · simp only [nameProbes, hb, Bool.false_eq_true, if_false, List.mem_cons,
          List.mem_map] at hev
        rcases hev with rfl | ⟨j, _, rfl⟩ <;> rfl
    · simp only [provisionCalls, List.mem_cons] at hev
      rcases hev with rfl | rfl | rfl | rfl | rfl | rfl | rfl | rfl | rfl | rfl | rfl |
        rfl | rfl | rfl | hev
      all_goals first | rfl | cases hev

theorem claim_C5_witness :
    runScript (okEnv d0) "" 1 =
      ((Event.inputRead prompt_region "" ::
          Event.mkClient "ec2" (regionOf "") ::
          (nameProbes d0 1 ++ provisionCalls d0 (chosenOf d0 1))) ++
        (summaryLines (regionOf "") (chosenOf d0 1) d0.vpcId d0.igwId d0.subnetId
            d0.rtId d0.sgId).map Event.print,
        Outcome.ok) ∧
    (summaryLines (regionOf "") (chosenOf d0 1) d0.vpcId d0.igwId d0.subnetId
        d0.rtId d0.sgId).length = 5 := by
  have h := claim_C5 d0 "" 1 1 (by decide) (by decide) (by decide) (by decide)
  exact ⟨h.1, h.2.1⟩

/-- Claim C6: on any run, the very first event is the single interactive
read (of the region prompt) and the second is the creation of the one EC2
client, created for the region derived from that input; no other input read
and no other client creation ever occurs (every API call goes through that
client). -/
theorem claim_C6 (env : Env) (inputLine : String) (fuel : Nat) :
    (runScript env inputLine fuel).1.get? 0 =
      some (Event.inputRead prompt_region inputLine) ∧
    (runScript env inputLine fuel).1.get? 1 =
      some (Event.mkClient "ec2" (regionOf inputLine)) ∧
    (runScript env inputLine fuel).1.countP isInputReadEvent = 1 ∧
    (runScript env inputLine fuel).1.countP isMkClientEvent = 1 := by
  rcases hcn : chooseName env fuel with ⟨tr1, r⟩
  have htr1 : ∀ ev ∈ tr1, isInputReadEvent ev = false ∧ isMkClientEvent ev = false := by
    intro ev hev
    obtain ⟨n, rfl⟩ := chooseName_events env fuel ev (by rw [hcn]; exact hev)
    exact ⟨rfl, rfl⟩
  have hc1 : tr1.countP isInputReadEvent = 0 :=
    List.countP_eq_zero.mpr fun ev hev => by simp [(htr1 ev hev).1]
  have hc2 : tr1.countP isMkClientEvent = 0 :=
    List.countP_eq_zero.mpr fun ev hev => by simp [(htr1 ev hev).1, (htr1 ev hev).2]
  cases r with
  | failed e0 =>
    simp only [runScript, hcn, List.cons_append, List.nil_append]
    refine ⟨rfl, rfl, ?_, ?_⟩ <;>
      simp [List.countP_cons, hc1, hc2, isInputReadEvent, isMkClientEvent]
  | out =>
    simp only [runScript, hcn, List.cons_append, List.nil_append]
    refine ⟨rfl, rfl, ?_, ?_⟩ <;>
      simp [List.countP_cons, hc1, hc2, isInputReadEvent, isMkClientEvent]
  | found vpc_name =>
    have hpr : ∀ ev ∈ (provision env (regionOf inputLine) vpc_name).1,
        isInputReadEvent ev = false ∧ isMkClientEvent ev = false := by
      intro ev hev
      rcases provision_mem env (regionOf inputLine) vpc_name ev hev with
        ⟨s, rfl⟩ | ⟨c, rfl, _, _, _⟩ <;> exact ⟨rfl, rfl⟩
    have hp1 : (provision env (regionOf inputLine) vpc_name).1.countP isInputReadEvent = 0 :=
      List.countP_eq_zero.mpr fun ev hev => by simp [(hpr ev hev).1]
    have hp2 : (provision env (regionOf inputLine) vpc_name).1.countP isMkClientEvent = 0 :=
      List.countP_eq_zero.mpr fun ev hev => by simp [(hpr ev hev).2]
    simp only [runScript, hcn, List.cons_append, List.nil_append, List.append_assoc]
    refine ⟨rfl, rfl, ?_, ?_⟩ <;>
      simp [List.countP_cons, List.countP_append, hc1, hc2, hp1, hp2,
        isInputReadEvent, isMkClientEvent]

/-- Claim C7: the script is deterministic.  Runs are modelled as a pure
function of the environment, so with the same interactive input, the same
fuel and environments that give the same response to every API call, the
whole behaviour (the sequence of issued calls with their arguments, the
printed lines and the outcome) is identical; there is no concurrency or
nondeterministic choice in the model. -/
theorem claim_C7 (env1 env2 : Env) (inputLine : String) (fuel : Nat)
    (h : ∀ c, respOf env1 c = respOf env2 c) :
    runScript env1 inputLine fuel = runScript env2 inputLine fuel := by
  have henv : env1 = env2 := by
    apply Env.ext
    · funext n
      exact except_map_inj rList_inj (h (.describeVpcsByTag n))
    · funext a b
      exact except_map_inj rStr_inj (h (.createVpc a b))
    · funext a b
      exact except_map_inj rUnitFun_inj (h (.createTags a b))
    · exact except_map_inj rStr_inj (h .createInternetGateway)
    · funext a b
      exact except_map_inj rUnitFun_inj (h (.attachInternetGateway a b))
    · funext a b
      exact except_map_inj rStr_inj (h (.createSubnet a b))
    · funext a
      exact except_map_inj rList_inj (h (.describeRouteTables a))
    · funext a b c
      exact except_map_inj rUnitFun_inj (h (.createRoute a b c))
    · funext a b
      exact except_map_inj rUnitFun_inj (h (.associateRouteTable a b))
    · funext a b c
      exact except_map_inj rStr_inj (h (.createSecurityGroup a b c))
    · funext a b
      exact except_map_inj rUnitFun_inj (h (.authorizeSecurityGroupIngress a b))
  rw [henv]

theorem claim_C7_witness :
    runScript (okEnv d0) "" 1 = runScript (okEnv d0) "" 1 :=
  claim_C7 (okEnv d0) (okEnv d0) "" 1 fun _ => rfl

/-- Claim C8: an empty interactive input line makes the region fall back to
eu-west-1, and the EC2 client of any such run is created for eu-west-1. -/
theorem claim_C8 (env : Env) (fuel : Nat) :
    regionOf "" = "eu-west-1" ∧
    (runScript env "" fuel).1.get? 1 = some (Event.mkClient "ec2" "eu-west-1") := by
  refine ⟨rfl, ?_⟩
  rcases hcn : chooseName env fuel with ⟨tr1, r⟩
  cases r <;> simp [runScript, hcn, regionOf]

/-- Claim C9: on any run, any security-group ingress the script authorizes
carries exactly one rule, TCP from port 22 to port 22 from 0.0.0.0/0, and
its target group id is the one the create_security_group call (for the
chosen name in the created VPC) answered with. -/
theorem claim_C9 (env : Env) (inputLine : String) (fuel : Nat) (sg : String)
    (perms : List IpPermission)
    (h : Event.api (ApiCall.authorizeSecurityGroupIngress sg perms) ∈
      (runScript env inputLine fuel).1) :
    perms = [sshPermission] ∧
    ∃ vpc_name vpc_id, env.createVpc cidr_block tenancy = Except.ok vpc_id ∧
      env.createSecurityGroup (vpc_name ++ "-sg") sg_description vpc_id =
        Except.ok sg := by
  rcases hcn : chooseName env fuel with ⟨tr1, r⟩
  have htr1 : ∀ ev ∈ tr1, ∃ n, ev = Event.api (ApiCall.describeVpcsByTag n) := by
    intro ev hev
    exact chooseName_events env fuel ev (by rw [hcn]; exact hev)
  cases r with
  | failed e0 =>
    simp only [runScript, hcn, List.cons_append, List.nil_append, List.mem_cons] at h
    rcases h with h | h | h
    · cases h
    · cases h
    · obtain ⟨n, hn⟩ := htr1 _ h
      exact absurd hn (by simp)
  | out =>
    simp only [runScript, hcn, List.cons_append, List.nil_append, List.mem_cons] at h
    rcases h with h | h | h
    · cases h
    · cases h
    · obtain ⟨n, hn⟩ := htr1 _ h
      exact absurd hn (by simp)
  | found vpc_name =>
    simp only [runScript, hcn, List.cons_append, List.nil_append, List.append_assoc,
      List.mem_cons, List.mem_append] at h
    rcases h with h | h | h | h
    · cases h
    · cases h
    · obtain ⟨n, hn⟩ := htr1 _ h
      exact absurd hn (by simp)
    · rcases provision_mem env (regionOf inputLine) vpc_name _ h with
        ⟨s, hs⟩ | ⟨c, hcq, _, hauth, _⟩
      · cases hs
      · injection hcq with hcq
        obtain ⟨hperm, vpcId, hvpc, hsg⟩ := hauth sg perms hcq.symm
        exact ⟨hperm, vpc_name, vpcId, hvpc, hsg⟩

theorem claim_C9_witness :
    [sshPermission] = [sshPermission] ∧
    ∃ vpc_name vpc_id, (okEnv d0).createVpc cidr_block tenancy = Except.ok vpc_id ∧
      (okEnv d0).createSecurityGroup (vpc_name ++ "-sg") sg_description vpc_id =
        Except.ok "sg-1" :=
  claim_C9 (okEnv d0) "" 1 "sg-1" [sshPermission] (by decide)

/-- Claim C10: on a successful run the subnet is created with the same CIDR
block as the VPC (10.0.0.0/24, so the subnet spans the whole VPC range), and
every tagging call tags its resource with the chosen name plus one of the
fixed suffixes: nothing, -igw, -subnet, -rt, -sg. -/
theorem claim_C10 (d : EnvData) (inputLine : String) (fuel i0 : Nat) (h1 : 1 ≤ i0)
    (h2 : (d.tagged (suffixName base_name i0)).isEmpty = true)
    (h3 : ∀ j, j < i0 → 1 ≤ j → (d.tagged (suffixName base_name j)).isEmpty = false)
    (hfuel : i0 ≤ fuel) :
    cidr_block = "10.0.0.0/24" ∧
    Event.api (ApiCall.createVpc cidr_block tenancy) ∈
      (runScript (okEnv d) inputLine fuel).1 ∧
    Event.api (ApiCall.createSubnet d.vpcId cidr_block) ∈
      (runScript (okEnv d) inputLine fuel).1 ∧
    (∀ v cb, Event.api (ApiCall.createSubnet v cb) ∈
        (runScript (okEnv d) inputLine fuel).1 → cb = cidr_block) ∧
    (∀ rs tags, Event.api (ApiCall.createTags rs tags) ∈
        (runScript (okEnv d) inputLine fuel).1 →
      tags = [("Name", chosenOf d i0)] ∨
      tags = [("Name", chosenOf d i0 ++ "-igw")] ∨
      tags = [("Name", chosenOf d i0 ++ "-subnet")] ∨
      tags = [("Name", chosenOf d i0 ++ "-rt")] ∨
      tags = [("Name", chosenOf d i0 ++ "-sg")]) := by
  rw [runScript_okEnv d inputLine fuel i0 h1 h2 h3 hfuel]
  refine ⟨rfl, by simp [provTrace, provisionCalls], by simp [provTrace, provisionCalls],
    ?_, ?_⟩
  · intro v cb hmem
    by_cases hb : (d.tagged base_name).isEmpty <;>
      simp [nameProbes, hb, probe, provTrace, provisionCalls, summaryLines] at hmem <;>
      exact hmem.2
  · intro rs tags hmem
    by_cases hb : (d.tagged base_name).isEmpty <;>
      simp [nameProbes, hb, probe, provTrace, provisionCalls, summaryLines] at hmem <;>
      tauto

theorem claim_C10_witness :
    Event.api (ApiCall.createVpc cidr_block tenancy) ∈ (runScript (okEnv d0) "" 1).1 ∧
    Event.api (ApiCall.createSubnet "vpc-1" cidr_block) ∈ (runScript (okEnv d0) "" 1).1 := by
  have h := claim_C10 d0 "" 1 1 (by decide) (by decide) (by decide) (by decide)
  exact ⟨h.2.1, h.2.2.1⟩

end AwsVpc
